import Mathlib

/-!
# Verification of the sandboxed content-tree manager (`server/src/index.js`)

A shallow embedding of the path-guard, tree-builder and entry-operation
logic of the content CMS server, together with theorems settling the
specification's claims about it.

Paths are modelled as Lean `String`s with POSIX separators, mirroring the
Node.js `path.posix` semantics used by the server (`path.join`,
`path.normalize`, `String.prototype.startsWith`).  The filesystem is
modelled as a finite list of absolute paths tagged file/directory, and the
HTTP handlers as state-passing functions returning `Except` of the error
object the Express error middleware would see.
-/

/-! ## String primitives (JS semantics) -/

/-- Split a string on the separator character, JS `s.split('/')`. -/
def splitSegs (s : String) : List String :=
  (s.toList.splitOn '/').map (fun cs => String.mk cs)

/-- JS `s.startsWith(pre)`. -/
def strStartsWith (s pre : String) : Bool :=
  pre.toList.isPrefixOf s.toList

/-- JS `s.endsWith(suf)`. -/
def strEndsWith (s suf : String) : Bool :=
  suf.toList.isSuffixOf s.toList

/-- `sub` occurs as a contiguous run inside `l`. -/
def charsInfixOf (sub : List Char) : List Char → Bool
  | [] => sub.isEmpty
  | c :: rest => sub.isPrefixOf (c :: rest) || charsInfixOf sub rest

/-- JS `s.includes(sub)`: substring containment. -/
def strIncludes (s sub : String) : Bool :=
  charsInfixOf sub.toList s.toList

deriving instance DecidableEq for Except

/-! ## Node.js `path.posix` model

`path.posix.normalize` (Node `lib/path.js`): record whether the input is
absolute and whether it ends in a separator, resolve `.`/`..`/empty
segments (dropping `..` at the root of an absolute path, keeping leading
`..` of a relative one), re-join, then restore the root slash and a
trailing separator. -/

/-- Segment resolution of Node's `normalizeString`: `acc` is the stack of
kept segments in reverse order; `allowAbove` is true for relative paths
(leading `..` segments are kept rather than dropped). -/
def normSegsAux (allowAbove : Bool) : List String → List String → List String
  | acc, [] => acc.reverse
  | acc, seg :: rest =>
    if seg = "" || seg = "." then
      normSegsAux allowAbove acc rest
    else if seg = ".." then
      match acc with
      | [] =>
        if allowAbove then normSegsAux allowAbove [".."] rest
        else normSegsAux allowAbove [] rest
      | top :: acc' =>
        if top = ".." then normSegsAux allowAbove (".." :: top :: acc') rest
        else normSegsAux allowAbove acc' rest
    else
      normSegsAux allowAbove (seg :: acc) rest

/-- Node `path.posix.normalize`. -/
def pnormalize (p : String) : String :=
  if p = "" then "."
  else
    let isAbs := strStartsWith p "/"
    let trailingSep := strEndsWith p "/"
    let body := String.intercalate "/" (normSegsAux (!isAbs) [] (splitSegs p))
    let body := if body = "" && !isAbs then "." else body
    let body := if body ≠ "" && trailingSep then body ++ "/" else body
    if isAbs then "/" ++ body else body

/-- Node `path.posix.join(a, b)`: drop empty arguments, join the rest with
a separator, then normalize; an entirely empty join yields `"."`. -/
def pjoin (a b : String) : String :=
  let joined := if a = "" then b else if b = "" then a else a ++ "/" ++ b
  if joined = "" then "." else pnormalize joined

/-! ## Error model

JS `Error` objects thrown by the handlers carry a `message` and an
optional numeric `status`; the Express error middleware responds with
`err.status || 500`. -/

structure HttpErr where
  status : Option Nat
  message : String
deriving DecidableEq, Repr

/-- The HTTP status the error middleware sends: `err.status || 500`. -/
def respStatus (e : HttpErr) : Nat :=
  e.status.getD 500

/-! ## PathGuard (`assertValidName`, `resolvePostDir`, `resolveWithin`) -/

/-- Model of the server's content root.  In the source it is
`path.resolve(__dirname, '../../content')`, a deployment-dependent
absolute directory; the model pins it to a concrete absolute path. -/
def CONTENT_ROOT : String := "/content"

/-- `path.join(CONTENT_ROOT, 'posts')`. -/
def POSTS_DIR : String := pjoin CONTENT_ROOT "posts"

/-- `assertValidName` (`index.js:26`): requires a non-empty string that
contains neither `'/'` nor the substring `".."`.  The argument is an
`Option` because the JS value may be `undefined`. -/
def assertValidName (name : Option String) : Except HttpErr String :=
  match name with
  | none => .error ⟨some 400, "Name is required"⟩
  | some n =>
    if n = "" then .error ⟨some 400, "Name is required"⟩
    else if strIncludes n "/" || strIncludes n ".." then
      .error ⟨some 400, "Invalid name"⟩
    else .ok n

/-- `resolvePostDir` (`index.js:39`): join the slug onto `POSTS_DIR`,
normalize, and require the result to start (as a raw string) with
`POSTS_DIR`. -/
def resolvePostDir (slug : String) : Except HttpErr String :=
  let joined := pjoin POSTS_DIR slug
  let normalized := pnormalize joined
  if strStartsWith normalized POSTS_DIR then .ok normalized
  else .error ⟨some 400, "Invalid post path"⟩

/-- `resolveWithin` (`index.js:50`): join the target onto the base
directory, normalize, and require the result to start (as a raw string)
with `baseDir`. -/
def resolveWithin (baseDir targetPath : String) : Except HttpErr String :=
  let joined := pjoin baseDir targetPath
  let normalized := pnormalize joined
  if strStartsWith normalized baseDir then .ok normalized
  else .error ⟨some 400, "Path traversal is not allowed"⟩

/-- The containment relation the spec demands of `resolve` (§4.1): the
resolved path must equal the root or begin with the root followed
immediately by a separator. -/
def specWithinRoot (root p : String) : Bool :=
  p == root || strStartsWith p (root ++ "/")

/-! ## Filesystem model

A snapshot of the disk as a finite list of absolute normalized paths, each
tagged file or directory.  `fs-extra` operations used by the handlers:
`pathExists`, `move` (ENOENT when the source is absent, EEXIST-style
refusal when the destination is present), `remove` (recursive,
idempotent — `rm -rf` semantics, no error on an absent target),
`ensureDir` (`mkdir -p`) and `writeFile` (create or overwrite). -/

inductive EntKind where
  | file
  | dir
deriving DecidableEq, Repr

structure FS where
  entries : List (String × EntKind)
deriving DecidableEq, Repr

/-- `fse.pathExists`. -/
def FS.exists? (fs : FS) (p : String) : Bool :=
  fs.entries.any (fun e => e.1 == p)

/-- `p` names the entry `root` itself or lies strictly below it. -/
def underPath (root p : String) : Bool :=
  p == root || strStartsWith p (root ++ "/")

/-- Re-root the path `p` from `src` to `dst` (used by a recursive move). -/
def rebasePath (src dst p : String) : String :=
  dst ++ String.mk (p.toList.drop src.toList.length)

/-- `fse.move src dst`: fails with ENOENT if the source is absent, refuses
an existing destination, otherwise moves the source entry and every
descendant. -/
def FS.move (fs : FS) (src dst : String) : Except HttpErr FS :=
  if fs.exists? src = false then
    .error ⟨none, "ENOENT: no such file or directory"⟩
  else if fs.exists? dst then
    .error ⟨none, "dest already exists."⟩
  else
    .ok ⟨fs.entries.map (fun e =>
      if underPath src e.1 then (rebasePath src dst e.1, e.2) else e)⟩

/-- `fse.remove p`: drop the entry and all descendants; succeeds even when
nothing is there. -/
def FS.remove (fs : FS) (p : String) : FS :=
  ⟨fs.entries.filter (fun e => !underPath p e.1)⟩

/-- Every absolute ancestor of `p` (itself included), shortest first:
`"/a/b"` yields `["/a", "/a/b"]`. -/
def pathPrefixes (p : String) : List String :=
  let segs := (splitSegs p).filter (fun s => s ≠ "")
  (List.range segs.length).map
    (fun i => "/" ++ String.intercalate "/" (segs.take (i + 1)))

/-- Add a directory entry unless the path already exists. -/
def FS.addDirIfMissing (fs : FS) (p : String) : FS :=
  if fs.exists? p then fs else ⟨fs.entries ++ [(p, .dir)]⟩

/-- `fse.ensureDir p` (`mkdir -p`): create `p` and any missing ancestor. -/
def FS.ensureDir (fs : FS) (p : String) : FS :=
  (pathPrefixes p ++ [p]).foldl FS.addDirIfMissing fs

/-- `fs.writeFile p`: create the file or overwrite it in place. -/
def FS.writeFile (fs : FS) (p : String) : FS :=
  if fs.exists? p then fs else ⟨fs.entries ++ [(p, .file)]⟩

/-! ## Entry-operation handlers

Each handler is a state-passing function `FS → ... → Except HttpErr resp × FS`
mirroring the route bodies in `index.js`; throwing leaves the state at
whatever point the throw happened. -/

/-- JS falsiness of an optional string body field: `undefined` or `""`. -/
def falsyStr (o : Option String) : Bool :=
  match o with
  | none => true
  | some s => s == ""

/-- `ensurePostDirectory` (`index.js:97`) as a pure check. -/
def ensurePostDirectory (fs : FS) (dirPath : String) : Except HttpErr Unit :=
  if fs.exists? dirPath then .ok () else .error ⟨some 404, "Post not found"⟩

/-- `PUT /api/posts/:slug/files/rename` (`index.js:311`): validate the
body, resolve both paths inside the post, refuse an existing target, then
`fse.move`. -/
def renameFiles (fs : FS) (slug : String) (source target : Option String) :
    Except HttpErr String × FS :=
  if falsyStr source || falsyStr target then
    (.error ⟨some 400, "source and target are required"⟩, fs)
  else
    match resolvePostDir slug with
    | .error e => (.error e, fs)
    | .ok postDir =>
      match ensurePostDirectory fs postDir with
      | .error e => (.error e, fs)
      | .ok _ =>
        match resolveWithin postDir (source.getD "") with
        | .error e => (.error e, fs)
        | .ok sourcePath =>
          match resolveWithin postDir (target.getD "") with
          | .error e => (.error e, fs)
          | .ok targetPath =>
            if fs.exists? targetPath then
              (.error ⟨some 409, "Target already exists"⟩, fs)
            else
              match fs.move sourcePath targetPath with
              | .error e => (.error e, fs)
              | .ok fs' => (.ok "Renamed successfully", fs')

/-- `DELETE /api/posts/:slug/files` (`index.js:337`): validate the body,
resolve the target inside the post, then `fse.remove` it. -/
def deleteFiles (fs : FS) (slug : String) (target : Option String) :
    Except HttpErr String × FS :=
  if falsyStr target then
    (.error ⟨some 400, "target is required"⟩, fs)
  else
    match resolvePostDir slug with
    | .error e => (.error e, fs)
    | .ok postDir =>
      match ensurePostDirectory fs postDir with
      | .error e => (.error e, fs)
      | .ok _ =>
        match resolveWithin postDir (target.getD "") with
        | .error e => (.error e, fs)
        | .ok targetPath => (.ok "Deleted successfully", fs.remove targetPath)

/-- `POST /api/posts/:slug/files/create-folder` (`index.js:289`): validate
the name, lazily create the post root, resolve the parent, refuse an
existing folder, then `fse.ensureDir` the new one. -/
def createFolder (fs : FS) (slug : String) (parent name : Option String) :
    Except HttpErr String × FS :=
  match assertValidName name with
  | .error e => (.error e, fs)
  | .ok n =>
    match resolvePostDir slug with
    | .error e => (.error e, fs)
    | .ok postDir =>
      let fs₁ := fs.ensureDir postDir
      match resolveWithin postDir (parent.getD "") with
      | .error e => (.error e, fs₁)
      | .ok parentDir =>
        let folderPath := pjoin parentDir n
        if fs₁.exists? folderPath then
          (.error ⟨some 409, "Folder already exists"⟩, fs₁)
        else
          (.ok "Folder created", fs₁.ensureDir folderPath)

/-! ## Upload (`POST /api/posts/:slug/files/upload`) -/

/-- `MAX_UPLOAD_SIZE` (`index.js:13`): 50 MiB. -/
def MAX_UPLOAD_SIZE : Nat := 50 * 1024 * 1024

/-- An incoming multipart file: its original name and byte length. -/
structure UploadFile where
  originalname : String
  size : Nat
deriving DecidableEq, Repr

/-- Modelled from the spec: the upload middleware (the `multer` dependency
configured with `limits: { fileSize: MAX_UPLOAD_SIZE }` at `index.js:14`,
code not under `src/`) enforces the cap on the buffered payload before the
route handler runs, so an oversized payload fails with `PayloadTooLarge`
and no disk write occurs. -/
def multerAccepts (size : Nat) : Bool :=
  size ≤ MAX_UPLOAD_SIZE

/-- The route body at `index.js:267`: require a file, resolve the target
directory inside the post (lazily creating directories), then write the
payload at the file's original name. -/
def uploadRoute (fs : FS) (slug : String) (target : Option String)
    (file : Option UploadFile) : Except HttpErr String × FS :=
  match file with
  | none => (.error ⟨some 400, "File is required"⟩, fs)
  | some f =>
    match resolvePostDir slug with
    | .error e => (.error e, fs)
    | .ok postDir =>
      let fs₁ := fs.ensureDir postDir
      match resolveWithin postDir (match target with
          | none => ""
          | some t => t) with
      | .error e => (.error e, fs₁)
      | .ok destinationDir =>
        let fs₂ := fs₁.ensureDir destinationDir
        let filePath := pjoin destinationDir f.originalname
        (.ok "File uploaded", fs₂.writeFile filePath)

/-- The full upload pipeline: the size gate of the `multer` middleware
(modelled from the spec) in front of the route body. -/
def uploadEndpoint (fs : FS) (slug : String) (target : Option String)
    (file : Option UploadFile) : Except HttpErr String × FS :=
  match file with
  | some f =>
    if multerAccepts f.size = false then
      (.error ⟨some 413, "PayloadTooLarge"⟩, fs)
    else uploadRoute fs slug target file
  | none => uploadRoute fs slug target none

/-! ## TreeBuilder (`directoryTree`, `index.js:61`)

The walked disk subtree is modelled by `FST`; an `unreadable` node stands
for an entry whose `fs.stat`/`fs.readdir` fails mid-walk (e.g. it was
deleted concurrently after `readdir` listed it).  The string comparator
`lc` models the sign of `String.prototype.localeCompare`, which is ICU
library behaviour, not code of this repository; the sorting theorems hold
for any total transitive comparator. -/

inductive NodeT where
  | file (name path : String) (size mtime : Nat)
  | dir (name path : String) (children : List NodeT)

def NodeT.name : NodeT → String
  | .file n _ _ _ => n
  | .dir n _ _ => n

def NodeT.kind : NodeT → EntKind
  | .file _ _ _ _ => .file
  | .dir _ _ _ => .dir

/-- The sort comparator at `index.js:78`: equal types compare by name via
`localeCompare`, otherwise directories come first. -/
def nodeCompare (lc : String → String → Ordering) (a b : NodeT) : Ordering :=
  if a.kind = b.kind then lc a.name b.name
  else if a.kind = EntKind.dir then .lt else .gt

/-- `a` may precede `b` under the comparator (comparator result ≤ 0). -/
def nodeLe (lc : String → String → Ordering) (a b : NodeT) : Prop :=
  nodeCompare lc a b ≠ Ordering.gt

instance (lc : String → String → Ordering) : DecidableRel (nodeLe lc) :=
  fun a b => inferInstanceAs (Decidable (nodeCompare lc a b ≠ Ordering.gt))

/-- `items.sort(comparator)`: a sorted permutation of `items`. -/
def sortNodes (lc : String → String → Ordering) (items : List NodeT) : List NodeT :=
  items.insertionSort (nodeLe lc)

/-- A disk subtree as seen by the walk. -/
inductive FST where
  | file (size mtime : Nat)
  | dir (entries : List (String × FST))
  | unreadable

mutual

/-- `directoryTree(currentDir, baseDir)`: read the directory (failing if
it is unreadable), build the items, and sort them.  `rel` is the
slash-joined path of the current directory relative to the walk's base. -/
def directoryTree (lc : String → String → Ordering) (t : FST) (rel : String) :
    Except HttpErr (List NodeT) :=
  match t with
  | .dir entries =>
    match treeItems lc entries rel with
    | .error e => .error e
    | .ok items => .ok (sortNodes lc items)
  | .file _ _ => .error ⟨none, "ENOTDIR: not a directory, scandir"⟩
  | .unreadable => .error ⟨none, "ENOENT: no such file or directory, scandir"⟩

/-- The `Promise.all` body at `index.js:63`: `.DS_Store` entries are
filtered out; directories recurse, files are stat'ed, and any failure
rejects the whole list (there is no catch around an entry). -/
def treeItems (lc : String → String → Ordering)
    (entries : List (String × FST)) (rel : String) :
    Except HttpErr (List NodeT) :=
  match entries with
  | [] => .ok []
  | (name, sub) :: rest =>
    if name = ".DS_Store" then treeItems lc rest rel
    else
      let childRel := if rel = "" then name else rel ++ "/" ++ name
      match sub with
      | .file size mtime =>
        match treeItems lc rest rel with
        | .error e => .error e
        | .ok others => .ok (NodeT.file name childRel size mtime :: others)
      | .dir es =>
        match directoryTree lc (.dir es) childRel with
        | .error e => .error e
        | .ok children =>
          match treeItems lc rest rel with
          | .error e => .error e
          | .ok others => .ok (NodeT.dir name childRel children :: others)
      | .unreadable => .error ⟨none, "ENOENT: no such file or directory, stat"⟩

end

/-- A concrete case-insensitive comparator used to instantiate examples
and witnesses (compare the lowercased character lists). -/
def ciCompare (a b : String) : Ordering :=
  compare (a.toList.map Char.toLower) (b.toList.map Char.toLower)

/-- The ordering the spec states for one directory level: a directory may
precede anything, a file may precede only files, and equal types are
ordered by the name comparator. -/
def levelLe (lc : String → String → Ordering) (a b : NodeT) : Prop :=
  (a.kind = EntKind.dir ∧ b.kind = EntKind.file) ∨
  (a.kind = b.kind ∧ lc a.name b.name ≠ Ordering.gt)

/-- A node all of whose directory levels (recursively) are ordered. -/
inductive NodeSorted (lc : String → String → Ordering) : NodeT → Prop where
  | file (n p : String) (s m : Nat) : NodeSorted lc (.file n p s m)
  | dir (n p : String) (cs : List NodeT)
      (hord : cs.Pairwise (levelLe lc))
      (hrec : ∀ c ∈ cs, NodeSorted lc c) : NodeSorted lc (.dir n p cs)

/-- A concrete total transitive comparator (string length) used to
instantiate the sorting theorem. -/
def lenCompare (a b : String) : Ordering :=
  compare a.length b.length

/-! ## Helper lemmas about the filesystem model -/

theorem FS.exists?_addDirIfMissing_mono (fs : FS) (p q : String)
    (h : fs.exists? q = true) : (fs.addDirIfMissing p).exists? q = true := by
  unfold FS.addDirIfMissing
  split
  · exact h
  · unfold FS.exists? at h ⊢
    simp only [List.any_append, List.any_cons, List.any_nil, Bool.or_eq_true] at h ⊢
    exact Or.inl h

theorem FS.exists?_addDirIfMissing_self (fs : FS) (p : String) :
    (fs.addDirIfMissing p).exists? p = true := by
  unfold FS.addDirIfMissing
  split
  · assumption
  · unfold FS.exists?
    simp

theorem FS.exists?_foldl_mono (l : List String) (fs : FS) (q : String)
    (h : fs.exists? q = true) : (l.foldl FS.addDirIfMissing fs).exists? q = true := by
  induction l generalizing fs with
  | nil => exact h
  | cons p rest ih =>
    exact ih _ (FS.exists?_addDirIfMissing_mono fs p q h)

theorem FS.exists?_foldl_of_mem (l : List String) (fs : FS) (q : String)
    (h : q ∈ l) : (l.foldl FS.addDirIfMissing fs).exists? q = true := by
  induction l generalizing fs with
  | nil => cases h
  | cons p rest ih =>
    rcases List.mem_cons.mp h with rfl | hm
    · exact FS.exists?_foldl_mono rest _ q (FS.exists?_addDirIfMissing_self fs q)
    · exact ih _ hm

theorem FS.ensureDir_self (fs : FS) (p : String) :
    (fs.ensureDir p).exists? p = true :=
  FS.exists?_foldl_of_mem _ fs p (List.mem_append_right _ (List.mem_singleton_self p))

theorem FS.ensureDir_mono (fs : FS) (p q : String)
    (h : fs.exists? q = true) : (fs.ensureDir p).exists? q = true :=
  FS.exists?_foldl_mono _ fs q h

/-! ## Claim theorems -/

/-- C1: the spec requires `resolve(root, p)` to land on the root or a
strict descendant, never on a sibling directory sharing the root as a raw
string prefix.  The code's `normalized.startsWith(baseDir)` check has no
separator requirement, so the root `/content/posts/foo` accepts a
resolution into the sibling `/content/posts/foobar`. -/
theorem resolveWithin_accepts_prefix_sibling :
    resolveWithin "/content/posts/foo" "../foobar" = .ok "/content/posts/foobar" ∧
    specWithinRoot "/content/posts/foo" "/content/posts/foobar" = false := by
  decide

/-- C2: a relative path containing a `..` segment whose normalization
escapes the root is supposed to fail with `PathTraversal`, yet
`../my-post-draft` under root `/content/posts/my-post` normalizes to the
sibling `/content/posts/my-post-draft` and is accepted; the spec's own
example `../../etc/passwd` is rejected, but the guarantee is not universal. -/
theorem resolveWithin_dotdot_escape_accepted :
    strIncludes "../my-post-draft" ".." = true ∧
    resolveWithin "/content/posts/my-post" "../my-post-draft" =
      .ok "/content/posts/my-post-draft" ∧
    specWithinRoot "/content/posts/my-post" "/content/posts/my-post-draft" = false ∧
    resolveWithin "/content/posts/my-post" "../../etc/passwd" =
      .error ⟨some 400, "Path traversal is not allowed"⟩ := by
  decide

/-- C3: when the target of a rename already exists, the handler fails with
the 409 `AlreadyExists` error and returns the filesystem unchanged — the
existence check precedes the move, so the source is untouched. -/
theorem renameFiles_target_exists_conflict (fs : FS)
    (slug s t postDir sourcePath targetPath : String)
    (hs : s ≠ "") (ht : t ≠ "")
    (hpd : resolvePostDir slug = .ok postDir)
    (hroot : fs.exists? postDir = true)
    (hsp : resolveWithin postDir s = .ok sourcePath)
    (htp : resolveWithin postDir t = .ok targetPath)
    (hex : fs.exists? targetPath = true) :
    renameFiles fs slug (some s) (some t) =
      (.error ⟨some 409, "Target already exists"⟩, fs) := by
  unfold renameFiles ensurePostDirectory
  simp [falsyStr, hs, ht, hpd, hroot, hsp, htp, hex]

/-- C3 witness. -/
theorem renameFiles_target_exists_conflict_witness :
    renameFiles ⟨[("/content/posts/p", EntKind.dir),
        ("/content/posts/p/a.md", EntKind.file),
        ("/content/posts/p/b.md", EntKind.file)]⟩ "p" (some "a.md") (some "b.md") =
      (.error ⟨some 409, "Target already exists"⟩,
        ⟨[("/content/posts/p", EntKind.dir),
          ("/content/posts/p/a.md", EntKind.file),
          ("/content/posts/p/b.md", EntKind.file)]⟩) :=
  renameFiles_target_exists_conflict _ "p" "a.md" "b.md"
    "/content/posts/p" "/content/posts/p/a.md" "/content/posts/p/b.md"
    (by decide) (by decide) (by decide) (by decide) (by decide) (by decide) (by decide)

/-- C4 counterexample: renaming with an absent source does fail, but with
the generic ENOENT error of `fse.move` (no `status`, so the error
middleware answers 500), not with the 404 `NotFound` taxonomy error the
claim demands. -/
theorem renameFiles_missing_source_counterexample :
    (renameFiles ⟨[("/content/posts/p", EntKind.dir)]⟩ "p"
        (some "a.md") (some "b.md")).1 =
      .error ⟨none, "ENOENT: no such file or directory"⟩ ∧
    respStatus ⟨none, "ENOENT: no such file or directory"⟩ = 500 ∧
    respStatus ⟨none, "ENOENT: no such file or directory"⟩ ≠ 404 := by
  decide

/-- C4 amended: when the source of a rename is absent (and the target is
absent, so the 409 check passes), the handler fails with the generic
ENOENT error surfaced as HTTP 500 — not the 404 `NotFound` error — and
the filesystem is unchanged. -/
theorem renameFiles_missing_source_generic (fs : FS)
    (slug s t postDir sourcePath targetPath : String)
    (hs : s ≠ "") (ht : t ≠ "")
    (hpd : resolvePostDir slug = .ok postDir)
    (hroot : fs.exists? postDir = true)
    (hsp : resolveWithin postDir s = .ok sourcePath)
    (htp : resolveWithin postDir t = .ok targetPath)
    (hnt : fs.exists? targetPath = false)
    (hns : fs.exists? sourcePath = false) :
    renameFiles fs slug (some s) (some t) =
      (.error ⟨none, "ENOENT: no such file or directory"⟩, fs) ∧
    respStatus ⟨none, "ENOENT: no such file or directory"⟩ = 500 := by
  constructor
  · unfold renameFiles ensurePostDirectory FS.move
    simp [falsyStr, hs, ht, hpd, hroot, hsp, htp, hnt, hns]
  · rfl

/-- C4 witness. -/
theorem renameFiles_missing_source_generic_witness :
    renameFiles ⟨[("/content/posts/p", EntKind.dir)]⟩ "p"
        (some "a.md") (some "b.md") =
      (.error ⟨none, "ENOENT: no such file or directory"⟩,
        ⟨[("/content/posts/p", EntKind.dir)]⟩) ∧
    respStatus ⟨none, "ENOENT: no such file or directory"⟩ = 500 :=
  renameFiles_missing_source_generic _ "p" "a.md" "b.md"
    "/content/posts/p" "/content/posts/p/a.md" "/content/posts/p/b.md"
    (by decide) (by decide) (by decide) (by decide) (by decide) (by decide)
    (by decide) (by decide)

/-- C5 counterexample: deleting a target that was never present succeeds
silently with `"Deleted successfully"` (`fse.remove` is `rm -rf`-style
idempotent); the claimed `NotFound` report never happens. -/
theorem deleteFiles_absent_target_counterexample :
    deleteFiles ⟨[("/content/posts/p", EntKind.dir)]⟩ "p" (some "ghost.md") =
      (.ok "Deleted successfully", ⟨[("/content/posts/p", EntKind.dir)]⟩) := by
  decide

/-- C5 amended: when the post root exists but the resolved target has no
entry (nor any descendant entry), the delete handler succeeds silently
and leaves the filesystem unchanged; `NotFound` is reported only for a
missing post root, not for the absent target. -/
theorem deleteFiles_absent_target_silent (fs : FS)
    (slug t postDir targetPath : String)
    (ht : t ≠ "")
    (hpd : resolvePostDir slug = .ok postDir)
    (hroot : fs.exists? postDir = true)
    (htp : resolveWithin postDir t = .ok targetPath)
    (habs : ∀ e ∈ fs.entries, underPath targetPath e.1 = false) :
    deleteFiles fs slug (some t) = (.ok "Deleted successfully", fs) := by
  have hfil : fs.entries.filter (fun e => !underPath targetPath e.1) = fs.entries := by
    apply List.filter_eq_self.mpr
    intro e he
    simp [habs e he]
  unfold deleteFiles ensurePostDirectory FS.remove
  simp [falsyStr, ht, hpd, hroot, htp, hfil]

/-- C5 witness. -/
theorem deleteFiles_absent_target_silent_witness :
    deleteFiles ⟨[("/content/posts/p", EntKind.dir)]⟩ "p" (some "nope/deep.md") =
      (.ok "Deleted successfully", ⟨[("/content/posts/p", EntKind.dir)]⟩) :=
  deleteFiles_absent_target_silent _ "p" "nope/deep.md"
    "/content/posts/p" "/content/posts/p/nope/deep.md"
    (by decide) (by decide) (by decide) (by decide) (by decide)

/-- C8: a payload of exactly `MAX_UPLOAD_SIZE` bytes passes the size gate
and is written; a payload one byte over fails with `PayloadTooLarge`
before the route body runs, leaving the filesystem exactly as it was (no
partial file). -/
theorem uploadEndpoint_size_cap (fs : FS) (slug : String) (target : Option String)
    (name postDir destinationDir : String)
    (hpd : resolvePostDir slug = .ok postDir)
    (hdest : resolveWithin postDir (match target with
        | none => ""
        | some t => t) = .ok destinationDir) :
    (uploadEndpoint fs slug target (some ⟨name, MAX_UPLOAD_SIZE⟩)).1 =
      .ok "File uploaded" ∧
    uploadEndpoint fs slug target (some ⟨name, MAX_UPLOAD_SIZE + 1⟩) =
      (.error ⟨some 413, "PayloadTooLarge"⟩, fs) := by
  constructor
  · unfold uploadEndpoint uploadRoute multerAccepts
    simp [hpd, hdest]
  · unfold uploadEndpoint multerAccepts
    simp

/-- C8 witness. -/
theorem uploadEndpoint_size_cap_witness :
    (uploadEndpoint ⟨[("/content/posts/p", EntKind.dir)]⟩ "p" (some "img")
        (some ⟨"a.png", MAX_UPLOAD_SIZE⟩)).1 = .ok "File uploaded" ∧
    uploadEndpoint ⟨[("/content/posts/p", EntKind.dir)]⟩ "p" (some "img")
        (some ⟨"a.png", MAX_UPLOAD_SIZE + 1⟩) =
      (.error ⟨some 413, "PayloadTooLarge"⟩, ⟨[("/content/posts/p", EntKind.dir)]⟩) :=
  uploadEndpoint_size_cap _ "p" (some "img") "a.png"
    "/content/posts/p" "/content/posts/p/img" (by decide) (by decide)

/-- C9: `createFolder` is not idempotent — with no entry at the target
path, the first call succeeds and creates the directory, and repeating the
same call fails with the 409 `AlreadyExists` error. -/
theorem createFolder_not_idempotent (fs : FS)
    (slug parent name postDir parentDir : String)
    (hname : assertValidName (some name) = .ok name)
    (hpd : resolvePostDir slug = .ok postDir)
    (hpar : resolveWithin postDir parent = .ok parentDir)
    (habs : (fs.ensureDir postDir).exists? (pjoin parentDir name) = false) :
    (createFolder fs slug (some parent) (some name)).1 = .ok "Folder created" ∧
    ((createFolder fs slug (some parent) (some name)).2).exists?
      (pjoin parentDir name) = true ∧
    (createFolder (createFolder fs slug (some parent) (some name)).2
        slug (some parent) (some name)).1 =
      .error ⟨some 409, "Folder already exists"⟩ := by
  have h₁ : createFolder fs slug (some parent) (some name) =
      (.ok "Folder created", ((fs.ensureDir postDir).ensureDir (pjoin parentDir name))) := by
    unfold createFolder
    simp [hname, hpd, hpar, habs]
  have h₂ : (((fs.ensureDir postDir).ensureDir (pjoin parentDir name))).exists?
      (pjoin parentDir name) = true :=
    FS.ensureDir_self _ _
  refine ⟨by rw [h₁], by rw [h₁]; exact h₂, ?_⟩
  rw [h₁]
  unfold createFolder
  have h₃ : ((((fs.ensureDir postDir).ensureDir (pjoin parentDir name))).ensureDir
      postDir).exists? (pjoin parentDir name) = true :=
    FS.ensureDir_mono _ _ _ h₂
  simp [hname, hpd, hpar, h₃]

/-- C9 witness. -/
theorem createFolder_not_idempotent_witness :
    (createFolder ⟨[("/content/posts/p", EntKind.dir)]⟩ "p"
        (some "") (some "assets")).1 = .ok "Folder created" ∧
    ((createFolder ⟨[("/content/posts/p", EntKind.dir)]⟩ "p"
        (some "") (some "assets")).2).exists? "/content/posts/p/assets" = true ∧
    (createFolder (createFolder ⟨[("/content/posts/p", EntKind.dir)]⟩ "p"
        (some "") (some "assets")).2 "p" (some "") (some "assets")).1 =
      .error ⟨some 409, "Folder already exists"⟩ := by
  have h := createFolder_not_idempotent ⟨[("/content/posts/p", EntKind.dir)]⟩
    "p" "" "assets" "/content/posts/p" "/content/posts/p"
    (by decide) (by decide) (by decide) (by decide)
  exact h

/-- C10 counterexample: the body `{ target: "." }` is non-empty, passes
the falsiness check, resolves to the post root itself, and the delete
handler then removes the root directory and everything beneath it — the
claimed invariant that entry-level operations never delete the post root
is false. -/
theorem deleteFiles_dot_removes_post_root :
    deleteFiles ⟨[("/content/posts/p", EntKind.dir),
        ("/content/posts/p/a.md", EntKind.file)]⟩ "p" (some ".") =
      (.ok "Deleted successfully", ⟨[]⟩) := by
  decide

/-- C10 amended: the rename and delete handlers reject a missing or empty
relative-path argument with a 400 validation error before resolving any
path, leaving the filesystem untouched; but this does not protect the
post root, since a non-empty argument such as `"."` still resolves to the
root itself and lets the delete handler remove it. -/
theorem entryOps_reject_falsy_paths (fs : FS) (slug : String) :
    renameFiles fs slug none (some "x") =
      (.error ⟨some 400, "source and target are required"⟩, fs) ∧
    renameFiles fs slug (some "") (some "x") =
      (.error ⟨some 400, "source and target are required"⟩, fs) ∧
    renameFiles fs slug (some "x") none =
      (.error ⟨some 400, "source and target are required"⟩, fs) ∧
    renameFiles fs slug (some "x") (some "") =
      (.error ⟨some 400, "source and target are required"⟩, fs) ∧
    deleteFiles fs slug none =
      (.error ⟨some 400, "target is required"⟩, fs) ∧
    deleteFiles fs slug (some "") =
      (.error ⟨some 400, "target is required"⟩, fs) := by
  refine ⟨?_, ?_, ?_, ?_, ?_, ?_⟩ <;> simp [renameFiles, deleteFiles, falsyStr]

/-! ## Sortedness of the tree listing -/

/-- `nodeLe` (the comparator order the code sorts by) coincides with the
spec-level description `levelLe`. -/
theorem nodeLe_iff (lc : String → String → Ordering) (a b : NodeT) :
    nodeLe lc a b ↔ levelLe lc a b := by
  unfold nodeLe nodeCompare levelLe
  cases hka : a.kind <;> cases hkb : b.kind <;> simp [hka, hkb]

theorem nodeLe_total (lc : String → String → Ordering)
    (htot : ∀ a b, lc a b = Ordering.gt → lc b a ≠ Ordering.gt)
    (a b : NodeT) : nodeLe lc a b ∨ nodeLe lc b a := by
  unfold nodeLe nodeCompare
  cases hka : a.kind <;> cases hkb : b.kind <;> simp [hka, hkb]
  · by_cases h : lc a.name b.name = Ordering.gt
    · exact Or.inr (htot _ _ h)
    · exact Or.inl h
  · by_cases h : lc a.name b.name = Ordering.gt
    · exact Or.inr (htot _ _ h)
    · exact Or.inl h

theorem nodeLe_trans (lc : String → String → Ordering)
    (htrans : ∀ a b c, lc a b ≠ Ordering.gt → lc b c ≠ Ordering.gt →
      lc a c ≠ Ordering.gt)
    (a b c : NodeT) (hab : nodeLe lc a b) (hbc : nodeLe lc b c) :
    nodeLe lc a c := by
  unfold nodeLe nodeCompare at hab hbc ⊢
  cases hka : a.kind <;> cases hkb : b.kind <;> cases hkc : c.kind <;>
    simp [hka, hkb, hkc] at hab hbc ⊢ <;>
    exact htrans _ _ _ hab hbc

/-- Output of the sort is ordered by the comparator. -/
theorem sortNodes_sorted (lc : String → String → Ordering)
    (htot : ∀ a b, lc a b = Ordering.gt → lc b a ≠ Ordering.gt)
    (htrans : ∀ a b c, lc a b ≠ Ordering.gt → lc b c ≠ Ordering.gt →
      lc a c ≠ Ordering.gt)
    (items : List NodeT) : (sortNodes lc items).Pairwise (nodeLe lc) := by
  haveI : IsTotal NodeT (nodeLe lc) := ⟨nodeLe_total lc htot⟩
  haveI : IsTrans NodeT (nodeLe lc) := ⟨nodeLe_trans lc htrans⟩
  exact List.sorted_insertionSort (nodeLe lc) items

theorem mem_sortNodes (lc : String → String → Ordering) (items : List NodeT)
    (n : NodeT) : n ∈ sortNodes lc items ↔ n ∈ items :=
  List.mem_insertionSort (nodeLe lc)

mutual

theorem directoryTree_ok_sorted (lc : String → String → Ordering)
    (htot : ∀ a b, lc a b = Ordering.gt → lc b a ≠ Ordering.gt)
    (htrans : ∀ a b c, lc a b ≠ Ordering.gt → lc b c ≠ Ordering.gt →
      lc a c ≠ Ordering.gt)
    (t : FST) (rel : String) (res : List NodeT)
    (h : directoryTree lc t rel = .ok res) :
    res.Pairwise (levelLe lc) ∧ ∀ n ∈ res, NodeSorted lc n := by
  cases t with
  | file s m => simp [directoryTree] at h
  | unreadable => simp [directoryTree] at h
  | dir entries =>
    rw [directoryTree] at h
    cases hti : treeItems lc entries rel with
    | error e => rw [hti] at h; cases h
    | ok items =>
      rw [hti] at h
      cases h
      constructor
      · exact (sortNodes_sorted lc htot htrans items).imp
          (fun hab => (nodeLe_iff lc _ _).mp hab)
      · intro n hn
        exact treeItems_ok_nodeSorted lc htot htrans entries rel items hti n
          ((mem_sortNodes lc items n).mp hn)

theorem treeItems_ok_nodeSorted (lc : String → String → Ordering)
    (htot : ∀ a b, lc a b = Ordering.gt → lc b a ≠ Ordering.gt)
    (htrans : ∀ a b c, lc a b ≠ Ordering.gt → lc b c ≠ Ordering.gt →
      lc a c ≠ Ordering.gt)
    (entries : List (String × FST)) (rel : String) (items : List NodeT)
    (h : treeItems lc entries rel = .ok items) :
    ∀ n ∈ items, NodeSorted lc n := by
  match entries with
  | [] =>
    rw [treeItems] at h
    cases h
    intro n hn
    cases hn
  | (name, sub) :: rest =>
    rw [treeItems] at h
    by_cases hds : name = ".DS_Store"
    · rw [if_pos hds] at h
      exact treeItems_ok_nodeSorted lc htot htrans rest rel items h
    · rw [if_neg hds] at h
      cases sub with
      | file size mtime =>
        simp only [] at h
        cases hrest : treeItems lc rest rel with
        | error e => rw [hrest] at h; cases h
        | ok others =>
          rw [hrest] at h
          cases h
          intro n hn
          cases hn with
          | head => exact NodeSorted.file _ _ _ _
          | tail _ hmem =>
            exact treeItems_ok_nodeSorted lc htot htrans rest rel others hrest n hmem
      | dir es =>
        simp only [] at h
        cases hsub : directoryTree lc (.dir es)
            (if rel = "" then name else rel ++ "/" ++ name) with
        | error e => rw [hsub] at h; cases h
        | ok children =>
          rw [hsub] at h
          cases hrest : treeItems lc rest rel with
          | error e => rw [hrest] at h; cases h
          | ok others =>
            rw [hrest] at h
            cases h
            intro n hn
            obtain ⟨hord, hrec⟩ :=
              directoryTree_ok_sorted lc htot htrans (.dir es)
                (if rel = "" then name else rel ++ "/" ++ name) children hsub
            cases hn with
            | head => exact NodeSorted.dir _ _ _ hord hrec
            | tail _ hmem =>
              exact treeItems_ok_nodeSorted lc htot htrans rest rel others hrest n hmem
      | unreadable => simp only [] at h; cases h

end

/-- C6: every successful tree listing is sorted at every level —
directories precede files, entries of equal type are ascending under the
name comparator — and the listing is deterministic: any two successful
walks of the same disk state produce the same tree. -/
theorem directoryTree_sorted_deterministic (lc : String → String → Ordering)
    (htot : ∀ a b, lc a b = Ordering.gt → lc b a ≠ Ordering.gt)
    (htrans : ∀ a b c, lc a b ≠ Ordering.gt → lc b c ≠ Ordering.gt →
      lc a c ≠ Ordering.gt)
    (t : FST) (rel : String) (res : List NodeT)
    (h : directoryTree lc t rel = .ok res) :
    res.Pairwise (levelLe lc) ∧ (∀ n ∈ res, NodeSorted lc n) ∧
    (∀ res₂, directoryTree lc t rel = .ok res₂ → res₂ = res) := by
  obtain ⟨hp, hall⟩ := directoryTree_ok_sorted lc htot htrans t rel res h
  refine ⟨hp, hall, ?_⟩
  intro res₂ h₂
  rw [h] at h₂
  cases h₂
  rfl

theorem lenCompare_total : ∀ a b,
    lenCompare a b = Ordering.gt → lenCompare b a ≠ Ordering.gt := by
  intro a b h hc
  simp only [lenCompare, Nat.compare_eq_gt] at h hc
  omega

theorem lenCompare_trans : ∀ a b c,
    lenCompare a b ≠ Ordering.gt → lenCompare b c ≠ Ordering.gt →
    lenCompare a c ≠ Ordering.gt := by
  intro a b c hab hbc
  simp only [lenCompare, ne_eq, Nat.compare_eq_gt] at hab hbc ⊢
  omega

/-- C6 witness. -/
theorem directoryTree_sorted_deterministic_witness :
    [NodeT.dir "A" "A" [], NodeT.file "b.md" "b.md" 1 0,
      NodeT.file "a.md" "a.md" 2 0].Pairwise (levelLe lenCompare) :=
  (directoryTree_sorted_deterministic lenCompare lenCompare_total lenCompare_trans
    (.dir [("b.md", .file 1 0), ("A", .dir []), ("a.md", .file 2 0)]) ""
    [NodeT.dir "A" "A" [], NodeT.file "b.md" "b.md" 1 0,
      NodeT.file "a.md" "a.md" 2 0] (by rfl)).1

/-- The spec's worked example under a case-insensitive comparator:
entries `["b.md", "A", "a.md"]` list as `["A" (dir), "a.md", "b.md"]`. -/
theorem directoryTree_spec_example :
    directoryTree ciCompare
      (.dir [("b.md", .file 1 0), ("A", .dir []), ("a.md", .file 2 0)]) "" =
      .ok [NodeT.dir "A" "A" [], NodeT.file "a.md" "a.md" 2 0,
        NodeT.file "b.md" "b.md" 1 0] := by
  rfl

/-- No list of entries containing an unreadable one (other than the
filtered `.DS_Store` name) ever produces a successful item list: the
failure propagates out of the `Promise.all`. -/
theorem treeItems_unreadable_ne_ok (lc : String → String → Ordering) :
    ∀ (entries : List (String × FST)) (rel name : String),
    (name, FST.unreadable) ∈ entries → name ≠ ".DS_Store" →
    ∀ items, treeItems lc entries rel ≠ .ok items := by
  intro entries
  induction entries with
  | nil =>
    intro rel name hmem
    cases hmem
  | cons hd rest ih =>
    intro rel name hmem hname items h
    obtain ⟨hdname, hdsub⟩ := hd
    rw [treeItems] at h
    by_cases hds : hdname = ".DS_Store"
    · rw [if_pos hds] at h
      cases List.mem_cons.mp hmem with
      | inl heq =>
        cases heq
        exact hname hds
      | inr hmem' => exact ih rel name hmem' hname items h
    · rw [if_neg hds] at h
      cases hdsub with
      | unreadable =>
        simp only [] at h
        cases h
      | file size mtime =>
        simp only [] at h
        cases hrest : treeItems lc rest rel with
        | error e => rw [hrest] at h; cases h
        | ok others =>
          rw [hrest] at h
          cases List.mem_cons.mp hmem with
          | inl heq => cases heq
          | inr hmem' => exact ih rel name hmem' hname others hrest
      | dir es =>
        simp only [] at h
        cases hsub : directoryTree lc (.dir es)
            (if rel = "" then hdname else rel ++ "/" ++ hdname) with
        | error e => rw [hsub] at h; cases h
        | ok children =>
          rw [hsub] at h
          cases hrest : treeItems lc rest rel with
          | error e => rw [hrest] at h; cases h
          | ok others =>
            rw [hrest] at h
            cases List.mem_cons.mp hmem with
            | inl heq => cases heq
            | inr hmem' => exact ih rel name hmem' hname others hrest

/-- C7 amended: when a nested entry of the walked directory is unreadable
mid-walk (and is not the filtered `.DS_Store` name), `directoryTree` does
not skip it: the walk never returns a tree at all — the error aborts the
whole listing.  (A missing post root is reported separately as the 404
`NotFound` by `ensurePostDirectory` before the walk starts.) -/
theorem directoryTree_unreadable_aborts (lc : String → String → Ordering)
    (entries : List (String × FST)) (rel name : String)
    (hmem : (name, FST.unreadable) ∈ entries) (hname : name ≠ ".DS_Store") :
    ∀ res, directoryTree lc (.dir entries) rel ≠ .ok res := by
  intro res h
  rw [directoryTree] at h
  cases hti : treeItems lc entries rel with
  | error e => rw [hti] at h; cases h
  | ok items => exact treeItems_unreadable_ne_ok lc entries rel name hmem hname items hti

/-- C7 counterexample: with `gone` unreadable between two readable files,
the walk returns the ENOENT error instead of a tree of the remaining
entries. -/
theorem directoryTree_unreadable_counterexample :
    directoryTree ciCompare
      (.dir [("a.md", .file 1 0), ("gone", .unreadable), ("b.md", .file 2 0)]) "" =
      .error ⟨none, "ENOENT: no such file or directory, stat"⟩ := by
  rfl

/-- C7 witness: in particular the walk does not return the tree of the
two remaining entries that skipping would have produced. -/
theorem directoryTree_unreadable_aborts_witness :
    directoryTree ciCompare
      (.dir [("a.md", .file 1 0), ("gone", .unreadable), ("b.md", .file 2 0)]) "" ≠
      .ok [NodeT.file "a.md" "a.md" 1 0, NodeT.file "b.md" "b.md" 2 0] :=
  directoryTree_unreadable_aborts ciCompare
    [("a.md", .file 1 0), ("gone", .unreadable), ("b.md", .file 2 0)] "" "gone"
    (List.Mem.tail _ (List.Mem.head _)) (by decide)
    [NodeT.file "a.md" "a.md" 1 0, NodeT.file "b.md" "b.md" 2 0]
